import Mathlib

/-!
Verification of the CellTinder core subsystems: the centroid crop-and-pad
engine (backend/crop.py, backend/cell_image_set.py, and the CellArrays
class of backend/data_loader.py) and the threshold/selection backend
(the DataLoader class of backend/data_loader.py together with the
controllers in guis/ and gui/).

The embedding is shallow: NumPy 2D arrays are lists of rows of integers,
Python floats are rationals, NumPy basic slicing (with Python
negative-index semantics) is modelled exactly, and file access is
modelled by an explicit map from file keys to file contents.
-/

/-- Python slice index resolution for a sequence of length n: a negative
index counts from the end, and the result is clamped to the range 0..n. -/
def pyIdx (n : ℕ) (i : ℤ) : ℕ :=
  min ((if i < 0 then i + n else i).toNat) n

/-- Python list slicing l[lo:hi] with step 1, as used by NumPy basic
indexing on one axis. -/
def pySlice (lo hi : ℤ) (l : List α) : List α :=
  (l.take (pyIdx l.length hi)).drop (pyIdx l.length lo)

/-- Length of a Python slice, determined by the bounds and the source
length alone.  NumPy keeps this as the shape of a sliced axis even when
the slice on the other axis is empty. -/
def pySliceLen (lo hi : ℤ) (n : ℕ) : ℕ :=
  pyIdx n hi - pyIdx n lo

/-- Python int() applied to a float (here a rational): truncation toward
zero. -/
def pyInt (q : ℚ) : ℤ :=
  q.num.tdiv q.den

/-- NumPy 2D basic slicing a[ylo:yhi, xlo:xhi]. -/
def npSlice2 (ylo yhi xlo xhi : ℤ) (a : List (List ℤ)) : List (List ℤ) :=
  (pySlice ylo yhi a).map (fun r => pySlice xlo xhi r)

/-- NumPy shape[1] of a 2D array: the common row length (rows of a NumPy
array are rectangular). -/
def npWidth (a : List (List ℤ)) : ℕ :=
  (a.head?.getD []).length

/-- An embedded 2D array is rectangular: every row has length shape[1]. -/
def Rectangular (a : List (List ℤ)) : Prop :=
  ∀ r ∈ a, r.length = npWidth a

/-- np.pad of a 2D array with constant zeros, pad widths
((pt, pb), (pl, pr)).  cw is the column count of cropped, which NumPy
carries in the shape even when cropped has zero rows. -/
def npPad (pt pb pl pr : ℕ) (cropped : List (List ℤ)) (cw : ℕ) : List (List ℤ) :=
  List.replicate pt (List.replicate (pl + cw + pr) (0 : ℤ))
    ++ cropped.map (fun r => List.replicate pl (0 : ℤ) ++ r ++ List.replicate pr (0 : ℤ))
    ++ List.replicate pb (List.replicate (pl + cw + pr) (0 : ℤ))

namespace Crop

/-- backend/crop.py, _pad_array: pad a cropped array to the desired size.
The caller passes the source shape, the desired window and the already
extracted sub-window (whose NumPy column count is cw). -/
def pad_array (arr_shape : ℕ × ℕ) (x_min x_max y_min y_max : ℤ)
    (cropped : List (List ℤ)) (cw : ℕ) : List (List ℤ) :=
  let pad_top : ℕ := if y_min < 0 then (0 - y_min).toNat else 0
  let pad_left : ℕ := if x_min < 0 then (0 - x_min).toNat else 0
  let pad_bottom : ℕ := if (arr_shape.1 : ℤ) < y_max then (y_max - arr_shape.1).toNat else 0
  let pad_right : ℕ := if (arr_shape.2 : ℤ) < x_max then (x_max - arr_shape.2).toNat else 0
  if pad_top ≠ 0 ∨ pad_bottom ≠ 0 ∨ pad_left ≠ 0 ∨ pad_right ≠ 0 then
    npPad pad_top pad_bottom pad_left pad_right cropped cw
  else
    cropped

/-- backend/crop.py, crop_array: crop a 2D array around a point; if the
crop region extends beyond the array, pad with zeros. -/
def crop_array (array : List (List ℤ)) (x y : ℚ) (size : ℕ) : List (List ℤ) :=
  let half : ℤ := ((size / 2 : ℕ) : ℤ)
  let x_min := pyInt x - half
  let x_max := x_min + size
  let y_min := pyInt y - half
  let y_max := y_min + size
  let h := array.length
  let w := npWidth array
  let cropped := npSlice2 (max y_min 0) (min y_max h) (max x_min 0) (min x_max w) array
  pad_array (h, w) x_min x_max y_min y_max cropped
    (pySliceLen (max x_min 0) (min x_max w) w)

end Crop

namespace CellImageSet

/-- backend/cell_image_set.py, CellImageSet._pad_array: extract the
in-range sub-window, optionally isolate the given mask value (zeroing all
other pixels), then zero-pad to the requested window. -/
def pad_array (array : List (List ℤ)) (x_min x_max y_min y_max : ℤ)
    (cell_mask_value : Option ℤ) : List (List ℤ) :=
  let h := array.length
  let w := npWidth array
  let cropped := npSlice2 (max y_min 0) (min y_max h) (max x_min 0) (min x_max w) array
  let cropped := match cell_mask_value with
    | some v => cropped.map (fun r => r.map (fun p => if p ≠ v then 0 else p))
    | none => cropped
  let pad_top : ℕ := if y_min < 0 then (0 - y_min).toNat else 0
  let pad_left : ℕ := if x_min < 0 then (0 - x_min).toNat else 0
  let pad_bottom : ℕ := if (h : ℤ) < y_max then (y_max - h).toNat else 0
  let pad_right : ℕ := if (w : ℤ) < x_max then (x_max - w).toNat else 0
  if pad_top ≠ 0 ∨ pad_bottom ≠ 0 ∨ pad_left ≠ 0 ∨ pad_right ≠ 0 then
    npPad pad_top pad_bottom pad_left pad_right cropped
      (pySliceLen (max x_min 0) (min x_max w) w)
  else
    cropped

/-- backend/cell_image_set.py, CellImageSet._box_array: compute the crop
window around the centroid (given as (y, x)) and delegate to _pad_array. -/
def box_array (array : List (List ℤ)) (cell_centroid : ℚ × ℚ) (crop_size : ℕ)
    (cell_mask_value : Option ℤ) : List (List ℤ) :=
  let half : ℤ := ((crop_size / 2 : ℕ) : ℤ)
  let y := cell_centroid.1
  let x := cell_centroid.2
  let x_min := pyInt x - half
  let x_max := x_min + crop_size
  let y_min := pyInt y - half
  let y_max := y_min + crop_size
  pad_array array x_min x_max y_min y_max cell_mask_value

end CellImageSet

/-- The substring pattern used to detect existing threshold columns
(guis/flame_filter.py line 64, gui/controllers/histo_control.py line 57). -/
def sepPat : List Char := "< x <".toList

/-- The literal separator inside a threshold column name
"{lower} < x < {upper}". -/
def sepName : List Char := " < x < ".toList

/-- Find the first occurrence of sep in s and split around it. -/
def splitFirst (sep : List Char) : List Char → Option (List Char × List Char)
  | [] => if sep.isPrefixOf ([] : List Char) then some ([], []) else none
  | c :: rest =>
    if sep.isPrefixOf (c :: rest) then some ([], (c :: rest).drop sep.length)
    else (splitFirst sep rest).map (fun pr => (c :: pr.1, pr.2))

/-- Python substring test, sep in s. -/
def containsSub (sep s : List Char) : Bool :=
  (splitFirst sep s).isSome

/-- Threshold column name "{lower} < x < {upper}" built by the commit
of guis/flame_filter.py line 61 / gui/controllers/histo_control.py
line 54, for a given float formatting fmt. -/
def mkThresholdName (fmt : ℚ → List Char) (lower upper : ℚ) : List Char :=
  fmt lower ++ sepName ++ fmt upper

/-- Commit of a threshold window on the table column names
(guis/flame_filter.py lines 61-71, gui/controllers/histo_control.py
lines 54-67): drop every column whose name contains "< x <", then add the
new column "{lower} < x < {upper}". -/
def commitThresholdCols (fmt : ℚ → List Char) (lower upper : ℚ)
    (cols : List (List Char)) : List (List Char) :=
  let threshold_cols := cols.filter (fun c => containsSub sepPat c)
  let remaining := if threshold_cols.isEmpty then cols
    else cols.filter (fun c => !(containsSub sepPat c))
  remaining ++ [mkThresholdName fmt lower upper]

/-- Parse "{lower} < x < {upper}" back into the two values: split on the
literal " < x < " (Python str.split yields exactly two parts when the
separator occurs exactly once) and parse both sides. -/
def parseThresholdName (parse : List Char → Option ℚ) (name : List Char) :
    Option (ℚ × ℚ) :=
  match splitFirst sepName name with
  | some (a, b) =>
    if containsSub sepName b then none
    else
      match parse a, parse b with
      | some l, some u => some (l, u)
      | _, _ => none
  | none => none

/-- Modelled from the spec: DataLoader.load_threshold_bounds, the method
called by guis/flame_filter.py lines 19 and 73 whose defining class is
absent from src/.  Spec 4.4: on load, scan column names for the "< x <"
pattern; if found, parse the two floats out of the literal name via the
pattern "float < x < float" and adopt them as the active window; if
parsing fails or no such column exists, fall back to the default bounds. -/
def load_threshold_bounds (parse : List Char → Option ℚ)
    (default_lower default_upper : ℚ) (cols : List (List Char)) : ℚ × ℚ :=
  match cols.find? (fun c => containsSub sepPat c) with
  | some name =>
    match parseThresholdName parse name with
    | some (l, u) => (l, u)
    | none => (default_lower, default_upper)
  | none => (default_lower, default_upper)

/-- One row of the cell table.  thr holds the value of the committed
boolean threshold column, process the kept/process flag. -/
structure CellRow where
  ratio : ℚ
  thr : Bool
  process : Bool
  centroid_y : ℚ
  centroid_x : ℚ
  fov_ID : List Char
deriving DecidableEq

/-- A column name of the cell table, as resolved by pandas df[col]:
either the ratio column or the committed threshold column. -/
inductive DfCol
  | ratioCol
  | thrCol
deriving DecidableEq

/-- pandas column access df[col] under numeric comparison: a boolean
column compares as 0/1. -/
def colValue (r : CellRow) : DfCol → ℚ
  | .ratioCol => r.ratio
  | .thrCol => if r.thr then 1 else 0

namespace DataLoader

/-- backend/data_loader.py, DataLoader.filter_data: rows whose value in
col_name lies in the inclusive range lower..upper. -/
def filter_data (df : List CellRow) (lower upper : ℚ) (col_name : DfCol) :
    List CellRow :=
  df.filter (fun r =>
    decide (lower ≤ colValue r col_name) && decide (colValue r col_name ≤ upper))

/-- backend/data_loader.py, DataLoader.get_cell_count: length of
filter_data on the ratio column. -/
def get_cell_count (df : List CellRow) (lower upper : ℚ) : ℕ :=
  (filter_data df lower upper .ratioCol).length

/-- The threshold-relevant state of a DataLoader: the table plus the
attributes set by update_thresholds (absent until it is called). -/
structure State where
  df : List CellRow
  thresholds : Option (ℚ × ℚ × DfCol)

/-- backend/data_loader.py, DataLoader.update_thresholds: record the
window and the name of the newly added threshold column. -/
def update_thresholds (s : State) (lower upper : ℚ) (new_column : DfCol) :
    State :=
  { s with thresholds := some (lower, upper, new_column) }

end DataLoader

/-- Pre path to per-frame files: directory, stem and extension, the frame
number still missing (backend/cell_image_set.py docstrings). -/
structure PreFilePath where
  dir : List Char
  stem : List Char
  suffix : List Char
deriving DecidableEq

/-- Decimal digits of a frame number. -/
def natChars (n : ℕ) : List Char :=
  Nat.toDigits 10 n

/-- backend/cell_image_set.py, _build_file_path: file name
"{stem}_{frame}{suffix}" joined onto the parent directory. -/
def build_full_path (pre : PreFilePath) (frame : ℕ) : List Char :=
  pre.dir ++ '/' :: (pre.stem ++ '_' :: (natChars frame ++ pre.suffix))

/-- Errors raised by the loading layer: ValueError for a missing threshold
window, FileNotFoundError, IOError, and the pandas IndexError for an
out-of-range iloc. -/
inductive LoadErr
  | invalidState
  | fileNotFound
  | ioError
  | indexError
deriving DecidableEq

/-- The file system, as seen by the loader: none means the path does not
exist, some none means it exists but cannot be decoded, some (some a)
means it decodes to the 2D array a. -/
def FS : Type :=
  List Char → Option (Option (List (List ℤ)))

/-- backend/cell_image_set.py, _build_file_path plus _crop_array: check
existence, read the array, crop and pad it (optionally isolating the mask
value). -/
def crop_array_file (fs : FS) (path : List Char) (cell_centroid : ℚ × ℚ)
    (size : ℕ) (cell_mask_value : Option ℤ) : Except LoadErr (List (List ℤ)) :=
  match fs path with
  | none => .error .fileNotFound
  | some none => .error .ioError
  | some (some arr) =>
    .ok (CellImageSet.box_array arr cell_centroid size cell_mask_value)

/-- The body of the frame loop of _loads_arrays: crop each listed frame
in order, propagating the first error as the loop would raise it. -/
def loads_arrays_frames (fs : FS) (pre : PreFilePath) (frames : List ℕ)
    (size : ℕ) (cell_centroid : ℚ × ℚ) (cell_mask_value : Option ℤ) :
    Except LoadErr (List (ℕ × List (List ℤ))) :=
  match frames with
  | [] => .ok []
  | frame :: rest =>
    match crop_array_file fs (build_full_path pre frame) cell_centroid size
        cell_mask_value with
    | .error e => .error e
    | .ok a =>
      match loads_arrays_frames fs pre rest size cell_centroid cell_mask_value with
      | .error e => .error e
      | .ok tail => .ok ((frame, a) :: tail)

/-- backend/cell_image_set.py, _loads_arrays: load and crop the frames
1..n_frames into a frame-indexed collection. -/
def loads_arrays_files (fs : FS) (pre : PreFilePath) (n_frames size : ℕ)
    (cell_centroid : ℚ × ℚ) (cell_mask_value : Option ℤ) :
    Except LoadErr (List (ℕ × List (List ℤ))) :=
  loads_arrays_frames fs pre ((List.range n_frames).map (fun i => i + 1)) size
    cell_centroid cell_mask_value

/-- backend/cell_image_set.py, CellImageSet.__init__: images are cropped
without isolation, masks with isolate value cell_mask_value. -/
def cellImageSetBuild (fs : FS) (cell_centroid : ℚ × ℚ)
    (pre_img_path pre_mask_path : PreFilePath) (cell_mask_value : ℤ)
    (n_frames box_size : ℕ) :
    Except LoadErr (List (ℕ × List (List ℤ)) × List (ℕ × List (List ℤ))) :=
  match loads_arrays_files fs pre_img_path n_frames box_size cell_centroid none with
  | .error e => .error e
  | .ok imgs =>
    match loads_arrays_files fs pre_mask_path n_frames box_size cell_centroid
        (some cell_mask_value) with
    | .error e => .error e
    | .ok masks => .ok (imgs, masks)

/-- backend/data_loader.py, CellArrays.__init__: both images and masks are
cropped without mask isolation. -/
def cellArraysBuild (fs : FS) (cell_centroid : ℚ × ℚ)
    (pre_img_path pre_mask_path : PreFilePath) (n_frames box_size : ℕ) :
    Except LoadErr (List (ℕ × List (List ℤ)) × List (ℕ × List (List ℤ))) :=
  match loads_arrays_files fs pre_img_path n_frames box_size cell_centroid none with
  | .error e => .error e
  | .ok imgs =>
    match loads_arrays_files fs pre_mask_path n_frames box_size cell_centroid none with
    | .error e => .error e
    | .ok masks => .ok (imgs, masks)

namespace DataLoader

/-- backend/data_loader.py, DataLoader.loads_arrays lines 139-170: fail
with ValueError when no thresholds were recorded, otherwise filter the
threshold column numerically with the recorded bounds, pick the cell row
by position, build the two pre paths and load the CellArrays. -/
def loads_arrays (s : State) (fs : FS) (cell_idx : ℕ)
    (img_folder mask_folder : List Char) (img_label mask_label : List Char)
    (n_frames box_size : ℕ) :
    Except LoadErr (List (ℕ × List (List ℤ)) × List (ℕ × List (List ℤ))) :=
  match s.thresholds with
  | none => .error .invalidState
  | some (lower, upper, column_thresholds) =>
    let pos_df := filter_data s.df lower upper column_thresholds
    match pos_df.get? cell_idx with
    | none => .error .indexError
    | some row =>
      let pre_img_path : PreFilePath :=
        { dir := img_folder, stem := row.fov_ID ++ '_' :: img_label,
          suffix := ".tif".toList }
      let pre_mask_path : PreFilePath :=
        { dir := mask_folder, stem := row.fov_ID ++ '_' :: mask_label,
          suffix := ".tif".toList }
      cellArraysBuild fs (row.centroid_y, row.centroid_x) pre_img_path
        pre_mask_path n_frames box_size

end DataLoader

/-- Modelled from the spec: the pos_df property of the DataLoader consumed
by the cell controllers (guis/cell_crush.py line 71,
gui/controllers/cell_image_control.py line 34); the class providing it is
absent from src/.  Spec 3 and 4.5: the rows where the active threshold
column is true, sorted by the ratio column descending, stably. -/
def pos_df (df : List CellRow) : List CellRow :=
  (df.filter (fun r => r.thr)).mergeSort (fun a b => decide (b.ratio ≤ a.ratio))

/-- guis/cell_crush.py line 111 and
gui/controllers/cell_image_control.py line 75: the selected count shown to
the caller, int(self.df['process'].sum()) over the controller's df. -/
def selected_count (df : List CellRow) : ℕ :=
  df.countP (fun r => r.process)

/-- guis/cell_crush.py line 129 (_mark_cell): set the process flag of the
row at the given position of the controller's df. -/
def mark_cell : List CellRow → ℕ → Bool → List CellRow
  | [], _, _ => []
  | r :: rs, 0, keep => { r with process := keep } :: rs
  | r :: rs, n + 1, keep => r :: mark_cell rs n keep

/-- A sequence of mark operations applied in order. -/
def apply_marks (marks : List (ℕ × Bool)) (df : List CellRow) : List CellRow :=
  marks.foldl (fun d m => mark_cell d m.1 m.2) df

/-- guis/cell_crush.py line 244 (_step_cell): move forward or back with
wrap, (current_idx + delta) % len(df); Python % on a positive modulus is
Int.emod. -/
def step_cell (current_idx delta n : ℤ) : ℤ :=
  (current_idx + delta) % n

/-- gui/controllers/cell_image_control.py lines 194-200
(on_previous_cell): decrement only when the index is positive. -/
def on_previous_cell_ctrl (current_idx : ℕ) : ℕ :=
  if 0 < current_idx then current_idx - 1 else current_idx

/-- gui/controllers/cell_image_control.py lines 237-245
(_move_to_next_cell): increment, wrapping to 0 at the end. -/
def move_to_next_cell_ctrl (current_idx n : ℕ) : ℕ :=
  if current_idx < n - 1 then current_idx + 1 else 0

/-- gui/controllers/histo_control.py line 67 (and guis/flame_filter.py
line 71): the values of the new boolean threshold column, the strict
chained comparison lower < x < upper applied to the ratio column. -/
def threshold_col_values (lower upper : ℚ) (df : List CellRow) : List Bool :=
  df.map (fun r => decide (lower < r.ratio) && decide (r.ratio < upper))

/-- The crop pipeline of backend/crop.py expressed over the integer
window corners; crop_array a x y size is definitionally
crop_window a (int(x) - size // 2) (int(y) - size // 2) size. -/
def crop_window (a : List (List ℤ)) (xm ym : ℤ) (size : ℕ) : List (List ℤ) :=
  Crop.pad_array (a.length, npWidth a) xm (xm + size) ym (ym + size)
    (npSlice2 (max ym 0) (min (ym + size) a.length) (max xm 0)
      (min (xm + size) (npWidth a)) a)
    (pySliceLen (max xm 0) (min (xm + size) (npWidth a)) (npWidth a))

/-- A row outside the intended window: ratio 0, threshold column false. -/
def rowLow : CellRow :=
  { ratio := 0, thr := false, process := false, centroid_y := 0,
    centroid_x := 0, fov_ID := [] }

/-- A row inside the intended window: ratio 3, threshold column true. -/
def rowHigh : CellRow :=
  { ratio := 3, thr := true, process := false, centroid_y := 0,
    centroid_x := 0, fov_ID := [] }

/-- A row flagged for processing but outside the active subset. -/
def rowStray : CellRow :=
  { ratio := 1, thr := false, process := true, centroid_y := 0,
    centroid_x := 0, fov_ID := [] }

/-- Claim C10: for every 2D array a, coordinates x and y, and size s, the
standalone crop_array of backend/crop.py returns the same array as
CellImageSet._box_array of backend/cell_image_set.py applied to centroid
(y, x) with mask isolation disabled. -/
theorem crop_array_eq_box_array (a : List (List ℤ)) (x y : ℚ) (s : ℕ) :
    Crop.crop_array a x y s = CellImageSet.box_array a (y, x) s none := by
  rfl

lemma pyIdx_le (n : ℕ) (i : ℤ) : pyIdx n i ≤ n :=
  min_le_right _ _

lemma pySlice_length (lo hi : ℤ) (l : List α) :
    (pySlice lo hi l).length = pySliceLen lo hi l.length := by
  have h := pyIdx_le l.length hi
  simp only [pySlice, pySliceLen, List.length_drop, List.length_take]
  omega

lemma mem_pySlice {lo hi : ℤ} {l : List α} {r : α} (h : r ∈ pySlice lo hi l) : r ∈ l :=
  List.mem_of_mem_take (List.mem_of_mem_drop h)

lemma npSlice2_length (ylo yhi xlo xhi : ℤ) (a : List (List ℤ)) :
    (npSlice2 ylo yhi xlo xhi a).length = pySliceLen ylo yhi a.length := by
  simp [npSlice2, pySlice_length]

lemma npSlice2_row_length {ylo yhi xlo xhi : ℤ} {a : List (List ℤ)}
    (hrect : Rectangular a) :
    ∀ r ∈ npSlice2 ylo yhi xlo xhi a, r.length = pySliceLen xlo xhi (npWidth a) := by
  intro r hr
  simp only [npSlice2, List.mem_map] at hr
  obtain ⟨r0, hr0, rfl⟩ := hr
  rw [pySlice_length, hrect r0 (mem_pySlice hr0)]

lemma npPad_length (pt pb pl pr : ℕ) (c : List (List ℤ)) (cw : ℕ) :
    (npPad pt pb pl pr c cw).length = pt + c.length + pb := by
  simp [npPad]
  omega

lemma npPad_row_length {pt pb pl pr : ℕ} {c : List (List ℤ)} {cw : ℕ}
    (hc : ∀ r ∈ c, r.length = cw) :
    ∀ r ∈ npPad pt pb pl pr c cw, r.length = pl + cw + pr := by
  intro r hr
  simp only [npPad, List.mem_append, List.mem_map, List.mem_replicate] at hr
  rcases hr with (⟨-, rfl⟩ | ⟨r0, hr0, rfl⟩) | ⟨-, rfl⟩
  · simp
  · simp [hc r0 hr0]
    omega
  · simp

lemma npPad_zero {pt pb pl pr : ℕ} {c : List (List ℤ)} {cw : ℕ}
    (hc : ∀ r ∈ c, r = []) :
    ∀ r ∈ npPad pt pb pl pr c cw, ∀ p ∈ r, p = 0 := by
  intro r hr p hp
  simp only [npPad, List.mem_append, List.mem_map, List.mem_replicate] at hr
  rcases hr with (⟨-, rfl⟩ | ⟨r0, hr0, rfl⟩) | ⟨-, rfl⟩
  · exact (List.eq_of_mem_replicate hp)
  · rw [hc r0 hr0] at hp
    simp only [List.append_nil, List.mem_append] at hp
    rcases hp with hp | hp <;> exact List.eq_of_mem_replicate hp
  · exact (List.eq_of_mem_replicate hp)

lemma pad_len_1d (ymin : ℤ) (size n : ℕ) (h0 : 0 ≤ ymin + size) (h1 : ymin ≤ (n : ℤ)) :
    ((if ymin < 0 then (0 - ymin).toNat else 0)
      + pySliceLen (max ymin 0) (min (ymin + size) n) n
      + if (n : ℤ) < ymin + size then (ymin + size - n).toNat else 0) = size := by
  simp only [pySliceLen, pyIdx, min_def, max_def]
  split_ifs <;> omega

lemma slice_len_zero_of_outside (ymin : ℤ) (size n : ℕ) (h0 : 0 ≤ ymin + size)
    (h : ymin + size ≤ 0 ∨ (n : ℤ) ≤ ymin) :
    pySliceLen (max ymin 0) (min (ymin + size) n) n = 0 := by
  simp only [pySliceLen, pyIdx, min_def, max_def, Int.toNat_zero]
  split_ifs <;> omega

lemma crop_array_eq_crop_window (a : List (List ℤ)) (x y : ℚ) (size : ℕ) :
    Crop.crop_array a x y size
      = crop_window a (pyInt x - ((size / 2 : ℕ) : ℤ))
          (pyInt y - ((size / 2 : ℕ) : ℤ)) size := rfl

lemma crop_window_shape (a : List (List ℤ)) (xm ym : ℤ) (size : ℕ)
    (hrect : Rectangular a)
    (hx0 : 0 ≤ xm + size) (hx1 : xm ≤ (npWidth a : ℤ))
    (hy0 : 0 ≤ ym + size) (hy1 : ym ≤ (a.length : ℤ)) :
    (crop_window a xm ym size).length = size
      ∧ ∀ r ∈ crop_window a xm ym size, r.length = size := by
  have hylen := pad_len_1d ym size a.length hy0 hy1
  have hxlen := pad_len_1d xm size (npWidth a) hx0 hx1
  have hclen := npSlice2_length (max ym 0) (min (ym + size) a.length)
    (max xm 0) (min (xm + size) (npWidth a)) a
  have hrow := @npSlice2_row_length (max ym 0) (min (ym + size) a.length)
    (max xm 0) (min (xm + size) (npWidth a)) a hrect
  unfold crop_window Crop.pad_array
  dsimp only
  set PT : ℕ := if ym < 0 then (0 - ym).toNat else 0 with hPT
  set PL : ℕ := if xm < 0 then (0 - xm).toNat else 0 with hPL
  set PB : ℕ := if (a.length : ℤ) < ym + size then (ym + size - a.length).toNat else 0 with hPB
  set PR : ℕ := if (npWidth a : ℤ) < xm + size then (xm + size - npWidth a).toNat else 0 with hPR
  split_ifs with hpad
  · constructor
    · rw [npPad_length, hclen]
      exact hylen
    · intro r hr
      rw [npPad_row_length hrow r hr]
      exact hxlen
  · push_neg at hpad
    obtain ⟨h1, h2, h3, h4⟩ := hpad
    constructor
    · rw [hclen]
      rw [h1, h2] at hylen
      omega
    · intro r hr
      rw [hrow r hr]
      rw [h3, h4] at hxlen
      omega

lemma crop_window_zero (a : List (List ℤ)) (xm ym : ℤ) (size : ℕ)
    (hrect : Rectangular a)
    (hx0 : 0 ≤ xm + size) (hy0 : 0 ≤ ym + size)
    (hout : ym + size ≤ 0 ∨ (a.length : ℤ) ≤ ym ∨ xm + size ≤ 0
      ∨ (npWidth a : ℤ) ≤ xm) :
    ∀ r ∈ crop_window a xm ym size, ∀ p ∈ r, p = 0 := by
  have hempty : ∀ r ∈ npSlice2 (max ym 0) (min (ym + size) a.length)
      (max xm 0) (min (xm + size) (npWidth a)) a, r = [] := by
    have hxcase : xm + size ≤ 0 ∨ (npWidth a : ℤ) ≤ xm →
        ∀ r ∈ npSlice2 (max ym 0) (min (ym + size) a.length)
          (max xm 0) (min (xm + size) (npWidth a)) a, r = [] := by
      intro hx r hr
      have hlen := @npSlice2_row_length (max ym 0) (min (ym + size) a.length)
        (max xm 0) (min (xm + size) (npWidth a)) a hrect r hr
      rw [slice_len_zero_of_outside xm size (npWidth a) hx0 hx] at hlen
      exact List.length_eq_zero.mp hlen
    have hycase : ym + size ≤ 0 ∨ (a.length : ℤ) ≤ ym →
        ∀ r ∈ npSlice2 (max ym 0) (min (ym + size) a.length)
          (max xm 0) (min (xm + size) (npWidth a)) a, r = [] := by
      intro hy
      have h0 : npSlice2 (max ym 0) (min (ym + size) a.length)
          (max xm 0) (min (xm + size) (npWidth a)) a = [] := by
        apply List.length_eq_zero.mp
        rw [npSlice2_length]
        exact slice_len_zero_of_outside ym size a.length hy0 hy
      intro r hr
      rw [h0] at hr
      exact absurd hr (List.not_mem_nil r)
    rcases hout with h | h | h | h
    · exact hycase (Or.inl h)
    · exact hycase (Or.inr h)
    · exact hxcase (Or.inl h)
    · exact hxcase (Or.inr h)
  unfold crop_window Crop.pad_array
  dsimp only
  set PT : ℕ := if ym < 0 then (0 - ym).toNat else 0 with hPT
  set PL : ℕ := if xm < 0 then (0 - xm).toNat else 0 with hPL
  set PB : ℕ := if (a.length : ℤ) < ym + size then (ym + size - a.length).toNat else 0 with hPB
  set PR : ℕ := if (npWidth a : ℤ) < xm + size then (xm + size - npWidth a).toNat else 0 with hPR
  split_ifs with hpad
  · exact npPad_zero hempty
  · intro r hr p hp
    rw [hempty r hr] at hp
    exact absurd hp (List.not_mem_nil p)

/-- Claim C1 (counterexample): the crop operation does not always return
shape (size, size), and a centroid entirely outside the source need not
yield an all-zero result.  On a 4x4 array with centroid (y, x) = (-4, 2)
and size 2 the requested window lies entirely above the array, yet
crop_array returns 6 rows (via Python negative-index slicing the row
slice [0:-3] is non-empty) including real data. -/
theorem crop_c1_counterexample :
    (Crop.crop_array [[1,1,1,1],[0,0,0,0],[0,0,0,0],[0,0,0,0]] 2 (-4) 2).length = 6
    ∧ (Crop.crop_array [[1,1,1,1],[0,0,0,0],[0,0,0,0],[0,0,0,0]] 2 (-4) 2).length ≠ 2
    ∧ ¬ (∀ r ∈ Crop.crop_array [[1,1,1,1],[0,0,0,0],[0,0,0,0],[0,0,0,0]] 2 (-4) 2,
          ∀ p ∈ r, p = (0 : ℤ)) := by
  decide

/-- Claim C1 (amended): for every rectangular 2D source array, every
centroid and every positive crop size, provided the requested window
meets or touches the source bounds on both axes (0 ≤ x_max, x_min ≤
width, 0 ≤ y_max, y_min ≤ height, with x_min = int(x) - size // 2 and
x_max = x_min + size as in the source), the crop returns an array of
shape exactly (size, size); if additionally the window only touches the
array (empty overlap on some axis) the result is all-zero.  The crop is a
total function, so no exception is raised. -/
theorem crop_shape_amended (array : List (List ℤ)) (x y : ℚ) (size : ℕ)
    (hrect : Rectangular array) (hsize : 0 < size)
    (hx0 : 0 ≤ pyInt x - ((size / 2 : ℕ) : ℤ) + size)
    (hx1 : pyInt x - ((size / 2 : ℕ) : ℤ) ≤ (npWidth array : ℤ))
    (hy0 : 0 ≤ pyInt y - ((size / 2 : ℕ) : ℤ) + size)
    (hy1 : pyInt y - ((size / 2 : ℕ) : ℤ) ≤ (array.length : ℤ)) :
    (Crop.crop_array array x y size).length = size
    ∧ (∀ r ∈ Crop.crop_array array x y size, r.length = size)
    ∧ ((pyInt y - ((size / 2 : ℕ) : ℤ) + size ≤ 0
        ∨ (array.length : ℤ) ≤ pyInt y - ((size / 2 : ℕ) : ℤ)
        ∨ pyInt x - ((size / 2 : ℕ) : ℤ) + size ≤ 0
        ∨ (npWidth array : ℤ) ≤ pyInt x - ((size / 2 : ℕ) : ℤ)) →
        ∀ r ∈ Crop.crop_array array x y size, ∀ p ∈ r, p = 0) := by
  rw [crop_array_eq_crop_window]
  obtain ⟨hl, hrows⟩ := crop_window_shape array
    (pyInt x - ((size / 2 : ℕ) : ℤ)) (pyInt y - ((size / 2 : ℕ) : ℤ)) size
    hrect hx0 hx1 hy0 hy1
  exact ⟨hl, hrows, fun hout => crop_window_zero array
    (pyInt x - ((size / 2 : ℕ) : ℤ)) (pyInt y - ((size / 2 : ℕ) : ℤ)) size
    hrect hx0 hy0 hout⟩

/-- Witness for crop_shape_amended at a concrete input: a 2x2 array with
centroid (0, 0) and size 2. -/
theorem crop_shape_amended_witness :
    (Crop.crop_array [[5,6],[7,8]] 0 0 2).length = 2 :=
  (crop_shape_amended [[5,6],[7,8]] 0 0 2 (by unfold Rectangular; decide)
    (by decide) (by decide) (by decide) (by decide) (by decide)).1

lemma npPad_pred {P : ℤ → Prop} {pt pb pl pr : ℕ} {c : List (List ℤ)} {cw : ℕ}
    (hP0 : P 0) (hc : ∀ r ∈ c, ∀ p ∈ r, P p) :
    ∀ r ∈ npPad pt pb pl pr c cw, ∀ p ∈ r, P p := by
  intro r hr p hp
  simp only [npPad, List.mem_append, List.mem_map, List.mem_replicate] at hr
  rcases hr with (⟨-, rfl⟩ | ⟨r0, hr0, rfl⟩) | ⟨-, rfl⟩
  · rw [List.eq_of_mem_replicate hp]
    exact hP0
  · simp only [List.mem_append, List.mem_replicate] at hp
    rcases hp with (⟨-, rfl⟩ | hp) | ⟨-, rfl⟩
    · exact hP0
    · exact hc r0 hr0 p hp
    · exact hP0
  · rw [List.eq_of_mem_replicate hp]
    exact hP0

lemma isolate_mem (v : ℤ) (c : List (List ℤ)) :
    ∀ r ∈ c.map (fun row => row.map (fun p => if p ≠ v then 0 else p)),
      ∀ p ∈ r, p = 0 ∨ p = v := by
  intro r hr p hp
  simp only [List.mem_map] at hr
  obtain ⟨r0, -, rfl⟩ := hr
  simp only [List.mem_map] at hp
  obtain ⟨q, -, rfl⟩ := hp
  by_cases h : q = v
  · simp [h]
  · simp [h]

lemma pad_array_isolate (a : List (List ℤ)) (x_min x_max y_min y_max : ℤ)
    (v : ℤ) :
    ∀ r ∈ CellImageSet.pad_array a x_min x_max y_min y_max (some v),
      ∀ p ∈ r, p = 0 ∨ p = v := by
  unfold CellImageSet.pad_array
  dsimp only
  set PT : ℕ := if y_min < 0 then (0 - y_min).toNat else 0 with hPT
  set PL : ℕ := if x_min < 0 then (0 - x_min).toNat else 0 with hPL
  set PB : ℕ := if (a.length : ℤ) < y_max then (y_max - a.length).toNat else 0 with hPB
  set PR : ℕ := if (npWidth a : ℤ) < x_max then (x_max - npWidth a).toNat else 0 with hPR
  split_ifs
  · exact npPad_pred (Or.inl rfl) (isolate_mem v _)
  · exact isolate_mem v _

lemma box_array_isolate (a : List (List ℤ)) (c : ℚ × ℚ) (s : ℕ) (v : ℤ) :
    ∀ r ∈ CellImageSet.box_array a c s (some v), ∀ p ∈ r, p = 0 ∨ p = v := by
  unfold CellImageSet.box_array
  exact pad_array_isolate a _ _ _ _ v

lemma loads_arrays_frames_isolated (fs : FS) (pre : PreFilePath)
    (frames : List ℕ) (size : ℕ) (cent : ℚ × ℚ) (v : ℤ)
    (out : List (ℕ × List (List ℤ)))
    (h : loads_arrays_frames fs pre frames size cent (some v) = .ok out) :
    ∀ fm ∈ out, ∀ row ∈ fm.2, ∀ p ∈ row, p = 0 ∨ p = v := by
  induction frames generalizing out with
  | nil =>
    simp only [loads_arrays_frames, Except.ok.injEq] at h
    subst h
    intro fm hfm
    exact absurd hfm (List.not_mem_nil fm)
  | cons f rest ih =>
    unfold loads_arrays_frames at h
    cases hc : crop_array_file fs (build_full_path pre f) cent size (some v) with
    | error e =>
      rw [hc] at h
      exact absurd h (by simp)
    | ok a =>
      rw [hc] at h
      cases ht : loads_arrays_frames fs pre rest size cent (some v) with
      | error e =>
        rw [ht] at h
        exact absurd h (by simp)
      | ok tail =>
        rw [ht] at h
        simp only [Except.ok.injEq] at h
        subst h
        intro fm hfm
        rcases List.mem_cons.mp hfm with rfl | hfm
        · unfold crop_array_file at hc
          cases hfs : fs (build_full_path pre f) with
          | none =>
            rw [hfs] at hc
            exact absurd hc (by simp)
          | some o =>
            cases o with
            | none =>
              rw [hfs] at hc
              exact absurd hc (by simp)
            | some arr =>
              rw [hfs] at hc
              simp only [Except.ok.injEq] at hc
              subst hc
              exact fun row hrow p hp => box_array_isolate arr cent size v row hrow p hp
        · exact ih tail ht fm hfm

/-- Claim C9: for every CellImageSet built with cell mask label v whose
construction succeeds (all frame files present and decodable), every
pixel of every returned mask crop is either 0 or equal to v: all pixels
of the extracted mask window not equal to v are zeroed.  Image crops are
built with cell_mask_value none, so they are never isolated. -/
theorem cell_image_set_masks_isolated (fs : FS) (cell_centroid : ℚ × ℚ)
    (pre_img pre_mask : PreFilePath) (v : ℤ) (n_frames box_size : ℕ)
    (imgs masks : List (ℕ × List (List ℤ)))
    (hbuild : cellImageSetBuild fs cell_centroid pre_img pre_mask v n_frames
      box_size = .ok (imgs, masks)) :
    ∀ fm ∈ masks, ∀ row ∈ fm.2, ∀ p ∈ row, p = 0 ∨ p = v := by
  unfold cellImageSetBuild at hbuild
  cases h1 : loads_arrays_files fs pre_img n_frames box_size cell_centroid none with
  | error e =>
    rw [h1] at hbuild
    exact absurd hbuild (by simp)
  | ok imgs0 =>
    rw [h1] at hbuild
    cases h2 : loads_arrays_files fs pre_mask n_frames box_size cell_centroid
        (some v) with
    | error e =>
      rw [h2] at hbuild
      exact absurd hbuild (by simp)
    | ok masks0 =>
      rw [h2] at hbuild
      simp only [Except.ok.injEq, Prod.mk.injEq] at hbuild
      obtain ⟨-, rfl⟩ := hbuild
      exact loads_arrays_frames_isolated fs pre_mask _ box_size cell_centroid v
        masks0 h2

/-- Witness for cell_image_set_masks_isolated: a concrete file system with
one frame whose mask decodes to [[1,3],[3,2]]; built with label value 3,
the pixel at the bottom-right of the returned mask crop is 0 or 3. -/
theorem cell_image_set_masks_isolated_witness :
    (0 : ℤ) = 0 ∨ (0 : ℤ) = 3 :=
  cell_image_set_masks_isolated
    (fun p =>
      if p = "i/a_1.t".toList then some (some [[1, 3], [3, 2]])
      else if p = "m/a_1.t".toList then some (some [[1, 3], [3, 2]])
      else none)
    (0, 0)
    { dir := "i".toList, stem := "a".toList, suffix := ".t".toList }
    { dir := "m".toList, stem := "a".toList, suffix := ".t".toList }
    3 1 2 [(1, [[0, 0], [0, 1]])] [(1, [[0, 0], [0, 0]])] (by rfl)
    (1, [[0, 0], [0, 0]]) (by decide) [0, 0] (by decide) 0 (by decide)

lemma crop_array_file_error (fs : FS) (path : List Char) (cent : ℚ × ℚ)
    (size : ℕ) (mv : Option ℤ) (e : LoadErr)
    (h : crop_array_file fs path cent size mv = .error e) :
    e = .fileNotFound ∨ e = .ioError := by
  unfold crop_array_file at h
  cases hfs : fs path with
  | none =>
    rw [hfs] at h
    simp only [Except.error.injEq] at h
    exact Or.inl h.symm
  | some o =>
    cases o with
    | none =>
      rw [hfs] at h
      simp only [Except.error.injEq] at h
      exact Or.inr h.symm
    | some arr =>
      rw [hfs] at h
      exact absurd h (by simp)

lemma loads_arrays_frames_error (fs : FS) (pre : PreFilePath) (frames : List ℕ)
    (size : ℕ) (cent : ℚ × ℚ) (mv : Option ℤ) (e : LoadErr)
    (h : loads_arrays_frames fs pre frames size cent mv = .error e) :
    e = .fileNotFound ∨ e = .ioError := by
  induction frames with
  | nil => simp [loads_arrays_frames] at h
  | cons f rest ih =>
    unfold loads_arrays_frames at h
    cases hc : crop_array_file fs (build_full_path pre f) cent size mv with
    | error e2 =>
      rw [hc] at h
      simp only [Except.error.injEq] at h
      subst h
      exact crop_array_file_error fs (build_full_path pre f) cent size mv e2 hc
    | ok a =>
      rw [hc] at h
      cases ht : loads_arrays_frames fs pre rest size cent mv with
      | error e2 =>
        rw [ht] at h
        simp only [Except.error.injEq] at h
        subst h
        exact ih ht
      | ok tail =>
        rw [ht] at h
        exact absurd h (by simp)

lemma cellArraysBuild_error (fs : FS) (cent : ℚ × ℚ)
    (pre_img pre_mask : PreFilePath) (n bs : ℕ) (e : LoadErr)
    (h : cellArraysBuild fs cent pre_img pre_mask n bs = .error e) :
    e = .fileNotFound ∨ e = .ioError := by
  unfold cellArraysBuild at h
  cases h1 : loads_arrays_files fs pre_img n bs cent none with
  | error e2 =>
    rw [h1] at h
    simp only [Except.error.injEq] at h
    subst h
    exact loads_arrays_frames_error fs pre_img _ bs cent none e2 h1
  | ok imgs =>
    rw [h1] at h
    cases h2 : loads_arrays_files fs pre_mask n bs cent none with
    | error e2 =>
      rw [h2] at h
      simp only [Except.error.injEq] at h
      subst h
      exact loads_arrays_frames_error fs pre_mask _ bs cent none e2 h2
    | ok masks =>
      rw [h2] at h
      exact absurd h (by simp)

/-- Claim C8: for every DataLoader on which no threshold window has been
recorded, loads_arrays fails with the invalid-state error (ValueError in
the source), uniformly in the file system — so before any file is
touched; and once a window has been recorded via update_thresholds, that
error is never raised again (other failures may still occur). -/
theorem loads_arrays_invalid_state (s : DataLoader.State)
    (hs : s.thresholds = none) :
    (∀ (fs : FS) (cell_idx : ℕ)
        (img_folder mask_folder img_label mask_label : List Char)
        (n_frames box_size : ℕ),
      DataLoader.loads_arrays s fs cell_idx img_folder mask_folder img_label
        mask_label n_frames box_size = .error .invalidState)
    ∧ ∀ (lower upper : ℚ) (col : DfCol) (fs : FS) (cell_idx : ℕ)
        (img_folder mask_folder img_label mask_label : List Char)
        (n_frames box_size : ℕ),
      DataLoader.loads_arrays (DataLoader.update_thresholds s lower upper col)
        fs cell_idx img_folder mask_folder img_label mask_label n_frames
        box_size ≠ .error .invalidState := by
  constructor
  · intro fs cell_idx img_folder mask_folder img_label mask_label n_frames box_size
    unfold DataLoader.loads_arrays
    rw [hs]
  · intro lower upper col fs cell_idx img_folder mask_folder img_label mask_label
      n_frames box_size
    unfold DataLoader.loads_arrays DataLoader.update_thresholds
    dsimp only
    cases hg : (DataLoader.filter_data s.df lower upper col).get? cell_idx with
    | none => simp
    | some row =>
      dsimp only
      intro hcontra
      rcases cellArraysBuild_error _ _ _ _ _ _ _ hcontra with h | h <;> cases h

/-- Witness for loads_arrays_invalid_state: an empty table with no
thresholds yields the invalid-state error; after update_thresholds the
same call fails differently (index error), not with invalid state. -/
theorem loads_arrays_invalid_state_witness :
    DataLoader.loads_arrays { df := [], thresholds := none } (fun _ => none) 0
        [] [] [] [] 0 0 = .error .invalidState
    ∧ DataLoader.loads_arrays
        (DataLoader.update_thresholds { df := [], thresholds := none } 1 2
          DfCol.thrCol)
        (fun _ => none) 0 [] [] [] [] 0 0 ≠ .error .invalidState :=
  ⟨(loads_arrays_invalid_state { df := [], thresholds := none } rfl).1
      (fun _ => none) 0 [] [] [] [] 0 0,
    (loads_arrays_invalid_state { df := [], thresholds := none } rfl).2 1 2
      DfCol.thrCol (fun _ => none) 0 [] [] [] [] 0 0⟩

/-- Claim C2 (evaluation at the failing input): with the window (0, 5)
recorded, the pos_df computed inside DataLoader.loads_arrays — filter_data
applied to the boolean threshold column with the numeric bounds — keeps
both rows, including the row whose threshold column is false, and in
stored order (ratios [0, 3], not descending); the spec subset is the
single true row. -/
theorem loads_arrays_pos_df_bug :
    DataLoader.filter_data [rowLow, rowHigh] 0 5 DfCol.thrCol
      = [rowLow, rowHigh]
    ∧ pos_df [rowLow, rowHigh] = [rowHigh]
    ∧ rowLow.thr = false
    ∧ (DataLoader.filter_data [rowLow, rowHigh] 0 5 DfCol.thrCol).map
        (fun r => r.ratio) = [0, 3]
    ∧ ¬ ((3 : ℚ) ≤ 0) := by
  refine ⟨by decide, ?_, rfl, by decide, by norm_num⟩
  unfold pos_df
  rw [show List.filter (fun r => r.thr) [rowLow, rowHigh] = [rowHigh] from
    by decide]
  exact List.mergeSort_singleton rowHigh

/-- Claim C3 (counterexample): the selected count reported by the cell
controllers is int(self.df['process'].sum()) over self.df = pos_df; on a
table whose single row has process = true but threshold column false, the
reported count is 0 while the whole table holds one true flag. -/
theorem selected_count_counterexample :
    selected_count (pos_df [rowStray]) = 0
    ∧ List.countP (fun r => r.process) [rowStray] = 1
    ∧ selected_count (pos_df [rowStray])
        ≠ List.countP (fun r => r.process) [rowStray] := by
  have h : pos_df [rowStray] = [] := by
    unfold pos_df
    rw [show List.filter (fun r => r.thr) [rowStray] = [] from by decide]
    exact List.mergeSort_nil
  refine ⟨by rw [h]; rfl, by decide, by rw [h]; decide⟩

/-- Claim C3 (amended): after any sequence of mark operations, the
selected count reported to the caller equals the number of true process
flags across the active subset (the pos_df the controller works on) — for
the freshly frozen subset that is the count of flagged rows among the
threshold-true rows of the table — not across the whole table. -/
theorem selected_count_amended (df : List CellRow) (marks : List (ℕ × Bool)) :
    selected_count (apply_marks marks (pos_df df))
      = List.countP (fun r => r.process) (apply_marks marks (pos_df df))
    ∧ selected_count (pos_df df)
      = List.countP (fun r => r.process) (df.filter (fun r => r.thr)) := by
  refine ⟨rfl, ?_⟩
  unfold selected_count pos_df
  exact (List.mergeSort_perm _ _).countP_eq _

/-- Claim C5 (counterexample): in CellImageController, stepping previous
from index 0 does not land on index n - 1: for a subset of length 3 the
index stays at 0 instead of moving to 2. -/
theorem previous_no_wrap_counterexample :
    on_previous_cell_ctrl 0 = 0 ∧ on_previous_cell_ctrl 0 ≠ 3 - 1 := by
  decide

/-- Claim C5 (amended): navigation is a pure index operation over the
frozen subset.  In CellCrush (_step_cell) it wraps at both ends: previous
from 0 lands on n - 1 and next from n - 1 lands on 0.  In
CellImageController, _move_to_next_cell wraps at the end, but
on_previous_cell does not wrap: at index 0 it stays at 0. -/
theorem navigation_wrap_amended (n : ℕ) (hn : 0 < n) :
    step_cell 0 (-1) n = (n : ℤ) - 1
    ∧ step_cell ((n : ℤ) - 1) 1 n = 0
    ∧ move_to_next_cell_ctrl (n - 1) n = 0
    ∧ on_previous_cell_ctrl 0 = 0 := by
  unfold step_cell move_to_next_cell_ctrl on_previous_cell_ctrl
  refine ⟨?_, ?_, ?_, rfl⟩
  · have h1 : ((0 : ℤ) + -1) = ((n : ℤ) - 1) - n := by ring
    rw [h1, Int.emod_sub_cancel, Int.emod_eq_of_lt (by omega) (by omega)]
  · have h1 : ((n : ℤ) - 1 + 1) = (n : ℤ) := by ring
    rw [h1, Int.emod_self]
  · split_ifs with h
    · omega
    · rfl

/-- Witness for navigation_wrap_amended at n = 3. -/
theorem navigation_wrap_amended_witness :
    step_cell 0 (-1) 3 = ((3 : ℕ) : ℤ) - 1
    ∧ step_cell (((3 : ℕ) : ℤ) - 1) 1 3 = 0
    ∧ move_to_next_cell_ctrl (3 - 1) 3 = 0
    ∧ on_previous_cell_ctrl 0 = 0 :=
  navigation_wrap_amended 3 (by decide)

/-- Claim C6: the boolean column written on commit is true exactly for
lower < ratio < upper (strict on both sides), while
get_cell_count counts rows with lower ≤ ratio ≤ upper (inclusive); a row
whose ratio equals lower or upper satisfies the inclusive count predicate
but its committed column value is false. -/
theorem strict_vs_inclusive (lower upper : ℚ) (df : List CellRow) :
    DataLoader.get_cell_count df lower upper
      = List.countP
          (fun r => decide (lower ≤ r.ratio) && decide (r.ratio ≤ upper)) df
    ∧ threshold_col_values lower upper df
      = df.map (fun r => decide (lower < r.ratio) && decide (r.ratio < upper))
    ∧ ∀ r ∈ df, (r.ratio = lower ∨ r.ratio = upper) → lower ≤ upper →
        ((decide (lower ≤ r.ratio) && decide (r.ratio ≤ upper)) = true
          ∧ (decide (lower < r.ratio) && decide (r.ratio < upper)) = false) := by
  refine ⟨?_, rfl, ?_⟩
  · unfold DataLoader.get_cell_count DataLoader.filter_data
    exact (List.countP_eq_length_filter _ _).symm
  · intro r hr hedge hle
    constructor
    · rcases hedge with h | h
      · simp [h, hle]
      · simp [h, hle]
    · rcases hedge with h | h
      · simp [h]
      · simp [h]

/-- Witness for strict_vs_inclusive: a row with ratio equal to the lower
bound of the window (1, 2) is counted inclusively but marked false. -/
theorem strict_vs_inclusive_witness :
    ((decide ((1 : ℚ) ≤ (1 : ℚ)) && decide ((1 : ℚ) ≤ (2 : ℚ))) = true)
    ∧ ((decide ((1 : ℚ) < (1 : ℚ)) && decide ((1 : ℚ) < (2 : ℚ))) = false) :=
  (strict_vs_inclusive 1 2
      [{ ratio := 1, thr := false, process := false, centroid_y := 0,
         centroid_x := 0, fov_ID := [] }]).2.2
    { ratio := 1, thr := false, process := false, centroid_y := 0,
      centroid_x := 0, fov_ID := [] }
    (List.mem_singleton.mpr rfl) (Or.inl rfl) (by norm_num)

lemma splitFirst_cons_of_ne {c0 x : Char} {sepRest s : List Char}
    (hx : x ≠ c0) :
    splitFirst (c0 :: sepRest) (x :: s)
      = (splitFirst (c0 :: sepRest) s).map (fun pr => (x :: pr.1, pr.2)) := by
  have hnot : ¬ ((c0 :: sepRest).isPrefixOf (x :: s) = true) := by
    rw [List.isPrefixOf_cons₂]
    simp only [Bool.and_eq_true, beq_iff_eq]
    exact fun h => hx h.1.symm
  simp only [splitFirst]
  rw [if_neg hnot]

lemma splitFirst_none_of_not_mem {c0 : Char} {sepRest b : List Char}
    (hb : c0 ∉ b) :
    splitFirst (c0 :: sepRest) b = none := by
  induction b with
  | nil => rfl
  | cons x xs ih =>
    have hx : x ≠ c0 := fun h => hb (h ▸ List.mem_cons_self x xs)
    rw [splitFirst_cons_of_ne hx, ih (fun h => hb (List.mem_cons_of_mem x h))]
    rfl

lemma splitFirst_append_of_not_mem {c0 : Char} {sepRest a b : List Char}
    (ha : c0 ∉ a) :
    splitFirst (c0 :: sepRest) (a ++ (c0 :: sepRest) ++ b) = some (a, b) := by
  induction a with
  | nil =>
    show splitFirst (c0 :: sepRest) (c0 :: (sepRest ++ b)) = some ([], b)
    simp only [splitFirst]
    rw [if_pos]
    · rw [show c0 :: (sepRest ++ b) = (c0 :: sepRest) ++ b from rfl,
        List.drop_left]
    · rw [List.isPrefixOf_iff_prefix,
        show c0 :: (sepRest ++ b) = (c0 :: sepRest) ++ b from rfl]
      exact List.prefix_append _ _
  | cons x xs ih =>
    have hx : x ≠ c0 := fun h => ha (h ▸ List.mem_cons_self x xs)
    show splitFirst (c0 :: sepRest) (x :: (xs ++ (c0 :: sepRest) ++ b))
      = some (x :: xs, b)
    rw [splitFirst_cons_of_ne hx, ih (fun h => ha (List.mem_cons_of_mem x h))]
    rfl

lemma splitFirst_isSome_append (c0 : Char) (sepRest a b : List Char) :
    (splitFirst (c0 :: sepRest) (a ++ (c0 :: sepRest) ++ b)).isSome = true := by
  induction a with
  | nil =>
    show (splitFirst (c0 :: sepRest) (c0 :: (sepRest ++ b))).isSome = true
    simp only [splitFirst]
    rw [if_pos]
    · rfl
    · rw [List.isPrefixOf_iff_prefix,
        show c0 :: (sepRest ++ b) = (c0 :: sepRest) ++ b from rfl]
      exact List.prefix_append _ _
  | cons x xs ih =>
    show (splitFirst (c0 :: sepRest) (x :: (xs ++ (c0 :: sepRest) ++ b))).isSome
      = true
    by_cases hx : x = c0
    · subst hx
      simp only [splitFirst]
      split_ifs
      · rfl
      · obtain ⟨pr, hpr⟩ := Option.isSome_iff_exists.mp ih
        rw [hpr]
        rfl
    · rw [splitFirst_cons_of_ne hx]
      obtain ⟨pr, hpr⟩ := Option.isSome_iff_exists.mp ih
      rw [hpr]
      rfl

lemma containsSub_mkThresholdName (fmt : ℚ → List Char) (l u : ℚ) :
    containsSub sepPat (mkThresholdName fmt l u) = true := by
  unfold containsSub mkThresholdName
  have h : fmt l ++ sepName ++ fmt u
      = (fmt l ++ [' ']) ++ ('<' :: " x <".toList) ++ ([' '] ++ fmt u) := by
    simp only [List.append_assoc]
    rfl
  rw [h, show sepPat = '<' :: " x <".toList from rfl]
  exact splitFirst_isSome_append '<' _ _ _

/-- Claim C7: after every commit operation the table contains exactly one
column whose name contains the substring "< x <": the commit first drops
every existing column matching the pattern and then adds the new one. -/
theorem commit_unique_threshold_col (fmt : ℚ → List Char) (lower upper : ℚ)
    (cols : List (List Char)) :
    List.countP (fun c => containsSub sepPat c)
      (commitThresholdCols fmt lower upper cols) = 1 := by
  have hname := containsSub_mkThresholdName fmt lower upper
  unfold commitThresholdCols
  dsimp only
  by_cases hemp : (cols.filter (fun c => containsSub sepPat c)).isEmpty = true
  · rw [if_pos hemp, List.countP_append]
    have h0 : List.countP (fun c => containsSub sepPat c) cols = 0 := by
      rw [List.countP_eq_length_filter, List.isEmpty_iff.mp hemp]
      rfl
    simp [h0, hname]
  · rw [if_neg hemp, List.countP_append]
    have h0 : List.countP (fun c => containsSub sepPat c)
        (cols.filter (fun c => !(containsSub sepPat c))) = 0 := by
      apply List.countP_eq_zero.mpr
      intro c hc
      rw [List.mem_filter] at hc
      simpa using hc.2
    simp [h0, hname]

lemma find?_append_of_none {α : Type} {p : α → Bool} {l₁ l₂ : List α}
    (h : ∀ a ∈ l₁, p a = false) :
    (l₁ ++ l₂).find? p = l₂.find? p := by
  induction l₁ with
  | nil => rfl
  | cons x xs ih =>
    have hx : p x = false := h x (List.mem_cons_self x xs)
    rw [List.cons_append, List.find?_cons_of_neg _ (by simp [hx])]
    exact ih (fun a ha => h a (List.mem_cons_of_mem x ha))

/-- Claim C4: for every pair (lower, upper) whose values round-trip
through the writing side's own float formatting (parse (fmt v) = some v)
and whose formatted forms contain no space (Python float formatting never
produces one), committing the window and then restoring it from the
stored column names reproduces exactly (lower, upper). -/
theorem commit_restore_roundtrip (fmt : ℚ → List Char)
    (parse : List Char → Option ℚ) (lower upper dl du : ℚ)
    (cols : List (List Char))
    (hl : parse (fmt lower) = some lower) (hu : parse (fmt upper) = some upper)
    (hsl : ' ' ∉ fmt lower) (hsu : ' ' ∉ fmt upper) :
    load_threshold_bounds parse dl du (commitThresholdCols fmt lower upper cols)
      = (lower, upper) := by
  have hname := containsSub_mkThresholdName fmt lower upper
  have hsplit : splitFirst sepName (mkThresholdName fmt lower upper)
      = some (fmt lower, fmt upper) := by
    unfold mkThresholdName
    rw [show sepName = ' ' :: "< x < ".toList from rfl]
    exact splitFirst_append_of_not_mem hsl
  have hnosep : containsSub sepName (fmt upper) = false := by
    unfold containsSub
    rw [show sepName = ' ' :: "< x < ".toList from rfl,
      splitFirst_none_of_not_mem hsu]
    rfl
  have hparse : parseThresholdName parse (mkThresholdName fmt lower upper)
      = some (lower, upper) := by
    unfold parseThresholdName
    rw [hsplit]
    dsimp only
    rw [if_neg (by rw [hnosep]; simp), hl, hu]
  unfold load_threshold_bounds commitThresholdCols
  dsimp only
  by_cases hemp : (cols.filter (fun c => containsSub sepPat c)).isEmpty = true
  · rw [if_pos hemp]
    have hall : ∀ c ∈ cols, containsSub sepPat c = false := by
      intro c hc
      have := List.filter_eq_nil_iff.mp (List.isEmpty_iff.mp hemp) c hc
      simpa using this
    rw [find?_append_of_none hall, List.find?_cons_of_pos _ hname]
    dsimp only
    rw [hparse]
  · rw [if_neg hemp]
    have hall : ∀ c ∈ cols.filter (fun c => !(containsSub sepPat c)),
        containsSub sepPat c = false := by
      intro c hc
      rw [List.mem_filter] at hc
      simpa using hc.2
    rw [find?_append_of_none hall, List.find?_cons_of_pos _ hname]
    dsimp only
    rw [hparse]

/-- Witness for commit_restore_roundtrip with a concrete formatting that
round-trips the pair (2, 3) on an initially threshold-free table. -/
theorem commit_restore_roundtrip_witness :
    load_threshold_bounds
      (fun s => if s = ['2'] then some (2 : ℚ)
        else if s = ['3'] then some 3 else none)
      0 1
      (commitThresholdCols (fun q => if q = (2 : ℚ) then ['2'] else ['3']) 2 3
        [])
      = (2, 3) :=
  commit_restore_roundtrip (fun q => if q = (2 : ℚ) then ['2'] else ['3'])
    (fun s => if s = ['2'] then some (2 : ℚ)
      else if s = ['3'] then some 3 else none)
    2 3 0 1 [] (by decide) (by decide) (by decide) (by decide)
